import Mathlib

/-!
Verification development for the buxtehude message bus (broker routing engine,
framed streaming protocol, session state machine).

The definitions below are a shallow embedding of the C++ sources:
  - `src/core.cpp`   (Message codec: to_json / from_json / Deserialise)
  - `src/validate.cpp` and `include/validate.hpp` (ValidateJSON, predicates)
  - `src/io.cpp`     (Stream reader: Await/Then/Read/Reset specialised to the
                      wire-frame field chain installed in ClientHandle's ctor)
  - `src/server.cpp` (ClientHandle: Write/Error/Disconnect/Available;
                      Server: HandleMessage/Serve/GetFirstAvailable/
                      GetClients_NoLock/Internal_RemoveClient/AddConnection)

JSON values (nlohmann::json) are modelled by the inductive `Json`; numbers are
modelled as integers (the handshake fields the broker reads are integers; the
float/integer distinction of nlohmann is never exercised by these claims).
Machine integers: the `u32` length prefix is a `Nat` produced from 4 bytes in
little-endian (host) order; the `uint32_t` conversion of a JSON number is
taken modulo 2^32 as `static_cast` does.
-/

namespace Buxtehude

/-- Reserved message-type / destination constants from `include/core.hpp`. -/
def MSG_ALL : String := "$$all"

def MSG_AVAILABLE : String := "$$available"

def MSG_DISCONNECT : String := "$$disconnect"

def MSG_ERROR : String := "$$error"

def MSG_HANDSHAKE : String := "$$handshake"

def MSG_INFO : String := "$$info"

def MSG_SUBSCRIBE : String := "$$subscribe"

def MSG_YOU : String := "$$you"

def DEFAULT_MAX_MESSAGE_LENGTH : Nat := 1024 * 128

def MIN_COMPATIBLE_VERSION : Int := 0

/-- Model of `nlohmann::json` values. Numbers are modelled as `Int`. -/
inductive Json where
  | null : Json
  | bool (b : Bool) : Json
  | num (n : Int) : Json
  | str (s : String) : Json
  | arr (xs : List Json) : Json
  | obj (kvs : List (String × Json)) : Json

namespace Json

/-- nlohmann `j == k` against an integer constant: false when `j` is not a
number, numeric comparison otherwise. -/
def eqNum (j : Json) (k : Int) : Bool :=
  match j with
  | .num n => n == k
  | _ => false

/-- nlohmann `j == s` against a string constant. -/
def eqStr (j : Json) (s : String) : Bool :=
  match j with
  | .str t => t == s
  | _ => false

/-- `basic_json::empty()`: true for null and for empty arrays/objects; false
for scalars (booleans, numbers, strings are treated as single values). -/
def isEmptyVal : Json → Bool
  | .null => true
  | .arr xs => xs.isEmpty
  | .obj kvs => kvs.isEmpty
  | _ => false

/-- `j.contains(key)` on an object; false on any other type. -/
def containsKey (j : Json) (k : String) : Bool :=
  match j with
  | .obj kvs => kvs.any (fun p => p.1 == k)
  | _ => false

/-- `j[key]` lookup (first binding wins; objects built here have unique keys).
Returns `null` when the key is missing. -/
def getKey (j : Json) (k : String) : Json :=
  match j with
  | .obj kvs => ((kvs.find? (fun p => p.1 == k)).map (·.2)).getD .null
  | _ => .null

/-- `get_to` into a `std::string`: succeeds only on a JSON string
(nlohmann throws `type_error` otherwise, modelled as `none`). -/
def asString : Json → Option String
  | .str s => some s
  | _ => none

/-- `get_to` into a `bool`. -/
def asBool : Json → Option Bool
  | .bool b => some b
  | _ => none

/-- `j.is_string()`. -/
def isString : Json → Bool
  | .str _ => true
  | _ => false

/-- `j.is_boolean()`. -/
def isBool : Json → Bool
  | .bool _ => true
  | _ => false

/-- `j.is_number()`. -/
def isNumber : Json → Bool
  | .num _ => true
  | _ => false

/-- The type rank used by nlohmann's `operator<` when the operands have
different types: null < boolean < number < object < array < string. -/
def typeRank : Json → Nat
  | .null => 0
  | .bool _ => 1
  | .num _ => 2
  | .obj _ => 3
  | .arr _ => 4
  | .str _ => 5

/-- nlohmann `j >= k` against an integer constant `k`: numeric comparison when
`j` is a number, otherwise comparison of the type ranks (`a >= b` is
`not (a < b)`). -/
def geInt (j : Json) (k : Int) : Bool :=
  match j with
  | .num n => k ≤ n
  | _ => ¬ (typeRank j < typeRank (.num k))

end Json

/-- `enum class MessageFormat : uint8_t { JSON = 0, MSGPACK = 1 }`. -/
inductive MessageFormat where
  | JSON
  | MSGPACK
deriving DecidableEq, Repr

/-- The numeric value a `MessageFormat` takes on the wire and in JSON. -/
def MessageFormat.toNum : MessageFormat → Nat
  | .JSON => 0
  | .MSGPACK => 1

/-- `enum class ConnectionType { UNIX, INTERNET, INTERNAL }`. -/
inductive ConnectionType where
  | UNIX
  | INTERNET
  | INTERNAL
deriving DecidableEq, Repr

/-- `struct Message` from `include/core.hpp` with its member initialisers. -/
structure Message where
  dest : String := ""
  src : String := ""
  type : String := ""
  content : Json := .null
  only_first : Bool := false

/-- `to_json` (`src/core.cpp`): always writes `type` and `only_first`; writes
`dest`, `src` when the strings are non-empty and `content` when
`content.empty()` is false. -/
def Message.toJson (m : Message) : Json :=
  .obj ([("type", .str m.type), ("only_first", .bool m.only_first)]
    ++ (if m.dest ≠ "" then [("dest", .str m.dest)] else [])
    ++ (if m.src ≠ "" then [("src", .str m.src)] else [])
    ++ (if ¬ m.content.isEmptyVal then [("content", m.content)] else []))

/-- `from_json` (`src/core.cpp`): starts from a default-initialised `Message`
and `get_to`s each key that is present; a present key of the wrong JSON type
makes nlohmann throw, modelled by `none`. -/
def Message.fromJson (j : Json) : Option Message := do
  let dest ← if j.containsKey "dest" then (j.getKey "dest").asString else pure ""
  let src ← if j.containsKey "src" then (j.getKey "src").asString else pure ""
  let ty ← if j.containsKey "type" then (j.getKey "type").asString else pure ""
  let onlyFirst ← if j.containsKey "only_first" then (j.getKey "only_first").asBool
                  else pure false
  let content := if j.containsKey "content" then j.getKey "content" else .null
  pure { dest := dest, src := src, type := ty, content := content,
         only_first := onlyFirst }

/-- The JSON value a `Message` is serialised to in format `f`
(`Message::WriteToStream` builds `json object = message` in both arms; the
byte-level `dump`/`to_msgpack` codec is the external collaborator of spec §1
and is faithful on JSON values). -/
def Message.serialise (f : MessageFormat) (m : Message) : Json :=
  match f with
  | .JSON => m.toJson
  | .MSGPACK => m.toJson

/-- `Message::Deserialise` (`src/core.cpp`): parse in format `f`, then
`get<Message>()`, i.e. `from_json`. -/
def Message.deserialise (f : MessageFormat) (j : Json) : Option Message :=
  match f with
  | .JSON => Message.fromJson j
  | .MSGPACK => Message.fromJson j

/-! ## Validator (`src/validate.cpp`, `include/validate.hpp`)

A validation series is an ordered list of (path, predicate) pairs. Every path
used by the batteries below is a single-key JSON pointer (`/teamname`, ...),
modelled by its key. `none` as predicate models `predicates::Exists`
(a null `Predicate`, skipped by `ValidateJSON`). -/

/-- `ValidateJSON`: every path must exist, and its predicate (when supplied)
must hold at that path. The C++ loop returns false at the first failure. -/
def ValidateJSON (j : Json) (tests : List (String × Option (Json → Bool))) : Bool :=
  tests.all fun t =>
    j.containsKey t.1 &&
      (match t.2 with
       | none => true
       | some p => p (j.getKey t.1))

namespace predicates

/-- `NotEmpty`: `j.is_string() && j != ""`. -/
def NotEmpty (j : Json) : Bool := j.isString && !(j.eqStr "")

/-- `IsBool`: `j.is_boolean()`. -/
def IsBool (j : Json) : Bool := j.isBool

/-- `IsNumber`: `j.is_number()`. -/
def IsNumber (j : Json) : Bool := j.isNumber

/-- `Matches({MessageFormat::JSON, MessageFormat::MSGPACK})`: the `json` of a
`MessageFormat` enum value is its underlying integer (0 or 1); nlohmann `==`
against a number is false for non-numbers. -/
def MatchesFormats (j : Json) : Bool := j.eqNum 0 || j.eqNum 1

/-- `GreaterEq<MIN_COMPATIBLE_VERSION>`: nlohmann `j >= 0`. -/
def VersionGreaterEq (j : Json) : Bool := j.geInt MIN_COMPATIBLE_VERSION

end predicates

/-- `VALIDATE_HANDSHAKE_SERVERSIDE` (`include/core.hpp`). -/
def VALIDATE_HANDSHAKE_SERVERSIDE : List (String × Option (Json → Bool)) :=
  [("teamname", some predicates.NotEmpty),
   ("format", some predicates.MatchesFormats),
   ("max-message-length", some predicates.IsNumber),
   ("version", some predicates.VersionGreaterEq)]

/-- `VALIDATE_AVAILABLE` (`include/core.hpp`). -/
def VALIDATE_AVAILABLE : List (String × Option (Json → Bool)) :=
  [("type", some predicates.NotEmpty),
   ("available", some predicates.IsBool)]

/-! ## Framed stream reader (`src/io.cpp` + the field chain installed by
`ClientHandle::ClientHandle(ConnectionType, FILE*, uint32_t)` in
`src/server.cpp`)

The wire reader of a stream session is the `Stream` field FIFO
`Await<MessageFormat>().Await<uint32_t>().Then(header_cb)`, where the header
callback rejects unknown format bytes, rejects `length > max_msg_len`, and
otherwise appends an `Await(length)` body field. Its state between `Read`
calls is: which field the cursor is on (`current`) and how many bytes of it
are filled (`data_offset`), captured here as `phase` and `buf`. `Reset` puts
the cursor back on the format field with offset 0; old field contents are
then overwritten, so a reset state is `.header` with an empty buffer.

`Stream::Read` consumes bytes strictly in order and runs callbacks only at
field boundaries, so consuming a block of `k` bytes (one `fread`) is
observably identical to consuming the `k` bytes one at a time; `stepByte`
processes a single byte and performs whatever boundary actions it
triggers. On frame completion `Stream::Read` returns true and
`ClientHandle::Read` deletes the body field and calls `Reset` (its
`scoped_guard`), so the post-frame state is again the reset state. -/

/-- One emitted frame: the format byte (`stream[0].Get<MessageFormat>()`) and
the body bytes (`stream[2].GetView()`). -/
structure Frame where
  format : Nat
  body : List Nat

/-- Which field of the FIFO the cursor is on. -/
inductive Phase where
  | header
  | length (fmtByte : Nat)
  | body (fmtByte : Nat) (size : Nat)

/-- Reader state: the `max_msg_len` captured by the header callback's lambda
at construction, the cursor, and the bytes filled so far in the current
field. -/
structure WireReader where
  maxMsgLen : Nat
  phase : Phase
  buf : List Nat

/-- Reader state at construction and after `Reset`. -/
def WireReader.reset (r : WireReader) : WireReader :=
  { r with phase := .header, buf := [] }

/-- A fresh reader for a session whose header callback captured `maxLen`. -/
def WireReader.fresh (maxLen : Nat) : WireReader :=
  { maxMsgLen := maxLen, phase := .header, buf := [] }

/-- `Get<uint32_t>` on the 4 accumulated bytes of the length field, in host
(little-endian) byte order. -/
def leU32 : List Nat → Nat
  | [b0, b1, b2, b3] => b0 + 256 * b1 + 65536 * b2 + 16777216 * b3
  | _ => 0

/-- Feed one byte to the reader. Returns the new reader state, an emitted
frame (when the byte completed a body, or completed a header declaring a
zero-length body), and an error string (when the header callback rejected the
frame and reset the stream: "Invalid message type!" for a bad format byte —
checked first — or "Buffer size too big!" for `size > max_msg_len`). -/
def stepByte (r : WireReader) (b : Nat) : WireReader × Option Frame × Option String :=
  match r.phase with
  | .header => ({ r with phase := .length b, buf := [] }, none, none)
  | .length f =>
    let buf := r.buf ++ [b]
    if buf.length < 4 then ({ r with buf := buf }, none, none)
    else
      let size := leU32 buf
      if f ≠ 0 ∧ f ≠ 1 then (r.reset, none, some "Invalid message type!")
      else if size > r.maxMsgLen then (r.reset, none, some "Buffer size too big!")
      else if size = 0 then (r.reset, some ⟨f, []⟩, none)
      else ({ r with phase := .body f size, buf := [] }, none, none)
  | .body f size =>
    let buf := r.buf ++ [b]
    if buf.length < size then ({ r with buf := buf }, none, none)
    else (r.reset, some ⟨f, buf⟩, none)

/-- Feed a chunk of bytes (one readable-event's worth): repeated `Read` until
the chunk is exhausted, collecting the frames and errors in order. -/
def feed (r : WireReader) (input : List Nat) : WireReader × List Frame × List String :=
  match input with
  | [] => (r, [], [])
  | b :: rest =>
    let s := stepByte r b
    let t := feed s.1 rest
    (t.1, s.2.1.toList ++ t.2.1, s.2.2.toList ++ t.2.2)

/-- Feed a sequence of chunks one after the other, the reader state
persisting in between. -/
def feedChunks (r : WireReader) (chunks : List (List Nat)) :
    WireReader × List Frame × List String :=
  match chunks with
  | [] => (r, [], [])
  | c :: cs =>
    let s := feed r c
    let t := feedChunks s.1 cs
    (t.1, s.2.1 ++ t.2.1, s.2.2 ++ t.2.2)

/-! ## Sessions (`ClientHandle`, `src/server.cpp`)

A broker-side session. The pointer identity of a `ClientHandle*` is modelled
by the session's position (index) in the broker's `clients` vector: within a
single `HandleMessage`/`Serve` step no reallocation happens, so indices
identify handles exactly as pointers do. `Write` delivers the message to the
peer when the session is connected (`Message::WriteToStream` for stream
sessions, `client_ptr->Internal_Receive` for internal ones) and fails when
`connected` is false; OS-level write failures on a live stream are outside
the model. -/

/-- `struct ClientPreferences` with its member initialisers. -/
structure ClientPreferences where
  teamname : String := "default"
  format : MessageFormat := .MSGPACK
  max_msg_length : Nat := DEFAULT_MAX_MESSAGE_LENGTH

/-- Broker-side per-peer record. `reader` is the stream state together with
the `max_msg_len` value captured by the header callback at construction
(meaningful for stream sessions only). -/
structure ClientHandle where
  conn_type : ConnectionType
  preferences : ClientPreferences := {}
  unavailable : List String := []
  handshaken : Bool := false
  connected : Bool := false
  last_error : Int := 0
  reader : WireReader := WireReader.fresh DEFAULT_MAX_MESSAGE_LENGTH

namespace ClientHandle

/-- `ClientHandle::Available`: `find(unavailable, type) == unavailable.end()`. -/
def Available (ch : ClientHandle) (ty : String) : Bool :=
  !(ch.unavailable.contains ty)

/-- The `$$disconnect` notice `Disconnect` writes to the session itself. -/
def mkSelfDisconnect (reason : String) : Message :=
  { type := MSG_DISCONNECT,
    content := .obj [("reason", .str reason), ("who", .str MSG_YOU)] }

/-- `ClientHandle::Disconnect(reason)`: when connected, write the
`$$disconnect {reason, who: $$you}` notice to the peer and close
(`Disconnect_NoWrite`); a no-op on an already-closed session. Returns the new
session state and the messages written to this peer. -/
def Disconnect (ch : ClientHandle) (reason : String) : ClientHandle × List Message :=
  if ch.connected then
    ({ ch with connected := false }, [mkSelfDisconnect reason])
  else (ch, [])

/-- `ClientHandle::Error(errstr)` at wall-clock time `now`
(`time(nullptr)`): rate-limited to one `$$error` per second via `last_error`;
the reply is written, and when the session is not yet handshaken (or the
write failed) the session is disconnected with reason "Failed handshake". -/
def Error (ch : ClientHandle) (now : Int) (errstr : String) :
    ClientHandle × List Message :=
  if now - ch.last_error < 1 then (ch, [])
  else
    let ch1 := { ch with last_error := now }
    if ch1.connected then
      -- Write succeeds on a connected session
      let reply : Message := { type := MSG_ERROR, content := .str errstr }
      if ch1.handshaken then (ch1, [reply])
      else
        let d := ch1.Disconnect "Failed handshake"
        (d.1, reply :: d.2)
    else
      -- Write fails; Disconnect("Failed handshake") is a no-op when closed
      (ch1, [])

/-- The `$$available` mask update of `Server::HandleMessage` (lines 348-361):
find `type` in `unavailable`; on `available == true` erase it when present, on
`available == false` append it when absent. -/
def applyAvailable (ch : ClientHandle) (content : Json) : ClientHandle :=
  { ch with unavailable :=
      let ty := ((content.getKey "type").asString).getD ""
      let av := ((content.getKey "available").asBool).getD false
      if av then ch.unavailable.erase ty
      else if ch.unavailable.contains ty then ch.unavailable
           else ch.unavailable ++ [ty] }

end ClientHandle

/-- `Server::AddConnection` wraps an accepted socket into a session:
`ClientHandle(conn_type, stream, max_msg_length)` — default preferences,
`connected = true`, `handshaken = false`, and a reader whose header callback
captured the broker's `max_msg_length` at this moment. -/
def AddConnection (server_max_msg_length : Nat) (ct : ConnectionType) : ClientHandle :=
  { conn_type := ct, connected := true,
    reader := WireReader.fresh server_max_msg_length }

/-- Byte-level serving of one stream session: each byte is pumped through the
reader; a reader error triggers `ClientHandle::Error` (run inside the header
callback); completed frames are handed on to the message layer. The loop
stops consuming once the session is closed (the handle's stream is gone).
Returns (session, `$$error`/`$$disconnect` messages written to this peer,
frames emitted). -/
def processBytes (ch : ClientHandle) (now : Int) (input : List Nat) :
    ClientHandle × List Message × List Frame :=
  match input with
  | [] => (ch, [], [])
  | b :: rest =>
    if ch.connected then
      let s := stepByte ch.reader b
      let ch1 := { ch with reader := s.1 }
      let e := match s.2.2 with
        | some estr => ch1.Error now estr
        | none => (ch1, [])
      let t := processBytes e.1 now rest
      (t.1, e.2 ++ t.2.1, s.2.1.toList ++ t.2.2)
    else (ch, [], [])

/-! ## Broker routing (`Server`, `src/server.cpp`) -/

/-- The loop body of `Server::GetFirstAvailable`: `result` is the running
`ClientHandle* result` accumulator. A session is considered when its team
matches (or the destination is the wildcard) and it is not `exclude`; the
first considered session available for `type` is returned immediately,
otherwise `result` remembers the most recent considered session. -/
def GFAloop (team ty : String) (exclude : Nat) :
    List (Nat × ClientHandle) → Option Nat → Option Nat
  | [], result => result
  | p :: rest, result =>
    if (p.2.preferences.teamname = team ∨ team = MSG_ALL) ∧ p.1 ≠ exclude then
      (if p.2.Available ty then some p.1 else GFAloop team ty exclude rest (some p.1))
    else GFAloop team ty exclude rest result

/-- `Server::GetFirstAvailable(team, type, exclude)`, returning the index of
the chosen session. -/
def GetFirstAvailable (clients : List ClientHandle) (team ty : String)
    (exclude : Nat) : Option Nat :=
  GFAloop team ty exclude clients.enum none

/-- `Server::GetClients_NoLock(team)`: every session when `team == $$all`,
otherwise the sessions whose team name equals `team`; as indices, in table
order. -/
def GetClients_NoLock (clients : List ClientHandle) (team : String) : List Nat :=
  if team = MSG_ALL then clients.enum.map (·.1)
  else (clients.enum.filter (fun p => p.2.preferences.teamname = team)).map (·.1)

/-- `Server::Broadcast(m)`: write `m` to every session in the table; a failed
write (closed session) leads to `Disconnect_NoWrite`, which is a no-op there.
Deliveries are the writes that succeed. -/
def Broadcast (clients : List ClientHandle) (m : Message) : List (Nat × Message) :=
  (clients.enum.filter (fun p => p.2.connected)).map (fun p => (p.1, m))

/-- nlohmann `get<uint32_t>` of a validated numeric JSON value
(`static_cast` semantics, modulo 2^32). -/
def Json.toU32 (j : Json) : Nat :=
  match j with
  | .num n => (n % (2 ^ 32 : Int)).toNat
  | _ => 0

/-- nlohmann `get<MessageFormat>` of a JSON value validated to be 0 or 1. -/
def Json.toFormat (j : Json) : MessageFormat :=
  if j.eqNum 0 then .JSON else .MSGPACK

/-- `Server::HandleMessage(ch, msg)` at wall-clock time `now`, for the sender
at index `i`. Returns the new session table and the list of deliveries
`(recipient index, message written)` — including the error / disconnect
notices written back to the sender itself. Mirrors `src/server.cpp` lines
331-380:
  1. a non-handshaken sender: anything but a handshake passing
     `VALIDATE_HANDSHAKE_SERVERSIDE` means `Disconnect("Failed handshake")`;
     a valid handshake adopts teamname/format/max-message-length and sets
     `handshaken`, and nothing is routed;
  2. a `$$available` message failing `VALIDATE_AVAILABLE` draws an `$$error`
     and is not routed; a valid one updates the sender's unavailability set
     and falls through to routing;
  3. an empty `dest` stops processing;
  4. `src` is overwritten with the sender's team name;
  5. `only_first` picks `GetFirstAvailable`, otherwise every
     `GetClients_NoLock(dest)` session other than the sender is written to. -/
def HandleMessage (now : Int) (clients : List ClientHandle) (i : Nat)
    (msg : Message) : List ClientHandle × List (Nat × Message) :=
  match clients[i]? with
  | none => (clients, [])
  | some ch =>
    if ¬ ch.handshaken then
      if msg.type ≠ MSG_HANDSHAKE ∨
          ¬ ValidateJSON msg.content VALIDATE_HANDSHAKE_SERVERSIDE then
        let d := ch.Disconnect "Failed handshake"
        (clients.set i d.1, d.2.map (fun m => (i, m)))
      else
        let ch' := { ch with
          preferences := { ch.preferences with
            teamname := ((msg.content.getKey "teamname").asString).getD "",
            format := (msg.content.getKey "format").toFormat,
            max_msg_length := (msg.content.getKey "max-message-length").toU32 },
          handshaken := true }
        (clients.set i ch', [])
    else
      let avail :=
        if msg.type = MSG_AVAILABLE then
          if ¬ ValidateJSON msg.content VALIDATE_AVAILABLE then
            none
          else
            some (ch.applyAvailable msg.content)
        else some ch
      match avail with
      | none =>
        -- invalid $$available: Error and return
        let e := ch.Error now "Incorrect format for $$available message"
        (clients.set i e.1, e.2.map (fun m => (i, m)))
      | some ch1 =>
        let clients1 := clients.set i ch1
        if msg.dest = "" then (clients1, [])
        else
          let msg' := { msg with src := ch1.preferences.teamname }
          if msg.only_first then
            match GetFirstAvailable clients1 msg.dest msg.type i with
            | none => (clients1, [])
            | some j =>
              if clients1[j]?.elim false (·.connected) then
                (clients1, [(j, msg')])
              else (clients1, [])
          else
            let recips := GetClients_NoLock clients1 msg.dest
            (clients1,
             (recips.filter (fun j =>
                j ≠ i ∧ clients1[j]?.elim false (·.connected))).map
               (fun j => (j, msg')))

/-- The tail of `Server::Serve` (`src/server.cpp` lines 314-328): after
handling, a session found disconnected is erased from the table and a
`$$disconnect {who: ...}` notice is broadcast to the remaining sessions.

The code saves `std::string teamname = std::move(ch->preferences.teamname)`
— leaving the member empty — erases the handle (freeing `*ch`), and then
passes `ch->preferences.teamname` (not the saved local) to `Broadcast`: a
read of the moved-from member through a dangling pointer. The value observed
is the moved-from empty string. -/
def Serve_RemoveAndBroadcast (clients : List ClientHandle) (i : Nat) :
    List ClientHandle × List (Nat × Message) :=
  match clients[i]? with
  | none => (clients, [])
  | some ch =>
    if ch.connected then (clients, [])
    else
      let whoValue : String := ""
      let clients' := clients.eraseIdx i
      (clients',
       Broadcast clients' { type := MSG_DISCONNECT,
                            content := .obj [("who", .str whoValue)] })

/-- `Server::Internal_RemoveClient(cl)`: erase the internal session bound to
`cl` (at index `i`), then broadcast `$$disconnect {who: cl.preferences.teamname}`
to the remaining sessions. Unlike the `Serve` path, the name is read from the
still-live `Client`, so the correct team name is broadcast. -/
def Internal_RemoveClient (clients : List ClientHandle) (i : Nat)
    (clientTeam : String) : List ClientHandle × List (Nat × Message) :=
  let clients' := clients.eraseIdx i
  (clients',
   Broadcast clients' { type := MSG_DISCONNECT,
                        content := .obj [("who", .str clientTeam)] })

/-- The reserved (`$$`-prefixed) control types of spec §6.2. -/
def RESERVED_TYPES : List String :=
  [MSG_HANDSHAKE, MSG_AVAILABLE, MSG_SUBSCRIBE, MSG_DISCONNECT, MSG_ERROR, MSG_INFO]

/-- Modelled from the spec: the sessions an only-first request *considers* —
"sessions whose team equals dest or dest == $$all and that are not the
sender", in insertion order. -/
def specConsidered (clients : List ClientHandle) (dest : String) (sender : Nat) :
    List (Nat × ClientHandle) :=
  clients.enum.filter
    (fun p => (p.2.preferences.teamname = dest ∨ dest = MSG_ALL) ∧ p.1 ≠ sender)

/-- Modelled from the spec: only-first selection — "the first such session
for which type is not in its unavailability set, and when no considered
session is available ... the last considered session (or nothing when no
session is considered at all)". -/
def specOnlyFirst (clients : List ClientHandle) (dest ty : String) (sender : Nat) :
    Option Nat :=
  match (specConsidered clients dest sender).find?
      (fun p => !(p.2.unavailable.contains ty)) with
  | some p => some p.1
  | none => (specConsidered clients dest sender).getLast?.map (·.1)

/-- The filtering step of the considered-session list, split off to keep the
`GetFirstAvailable` proof readable. -/
def consideredFilter (team : String) (exclude : Nat)
    (pairs : List (Nat × ClientHandle)) : List (Nat × ClientHandle) :=
  pairs.filter
    (fun p => (p.2.preferences.teamname = team ∨ team = MSG_ALL) ∧ p.1 ≠ exclude)

end Buxtehude

namespace Buxtehude

/-! ## Theorems -/

/-- `l.set i a = l` when position `i` already holds `a`. -/
theorem list_set_self {α : Type} (l : List α) (i : Nat) (a : α)
    (h : l[i]? = some a) : l.set i a = l := by
  induction l generalizing i with
  | nil => simp at h
  | cons x xs ih =>
    cases i with
    | zero => simp at h; simp [List.set, h]
    | succ j => simp at h; simp [List.set, ih j h]

/-- The `GetFirstAvailable` loop, characterised against the spec-side
description: first available considered session, else last considered
session, else the accumulator. -/
theorem GFAloop_spec (team ty : String) (exclude : Nat)
    (pairs : List (Nat × ClientHandle)) (acc : Option Nat) :
    GFAloop team ty exclude pairs acc =
      (match (consideredFilter team exclude pairs).find?
          (fun p => !(p.2.unavailable.contains ty)) with
       | some p => some p.1
       | none =>
         match (consideredFilter team exclude pairs).getLast? with
         | some q => some q.1
         | none => acc) := by
  induction pairs generalizing acc with
  | nil => simp [GFAloop, consideredFilter]
  | cons p rest ih =>
    by_cases hc : (p.2.preferences.teamname = team ∨ team = MSG_ALL) ∧ p.1 ≠ exclude
    · have hfil : consideredFilter team exclude (p :: rest) =
          p :: consideredFilter team exclude rest := by
        simp [consideredFilter, List.filter_cons, hc]
      by_cases ha : p.2.Available ty
      · simp only [GFAloop, if_pos hc, if_pos ha, hfil]
        rw [List.find?_cons_of_pos]
        simpa [ClientHandle.Available] using ha
      · simp only [GFAloop, if_pos hc, if_neg ha, hfil]
        rw [ih]
        rw [List.find?_cons_of_neg]
        · cases hfind : (consideredFilter team exclude rest).find?
              (fun p => !(p.2.unavailable.contains ty)) with
          | some q => simp
          | none =>
            simp only []
            cases hrest : consideredFilter team exclude rest with
            | nil => simp
            | cons q qs =>
              cases hql : (q :: qs).getLast? with
              | some x => simp [List.getLast?_cons_cons, hql]
              | none => simp [List.getLast?_eq_none_iff] at hql
        · simpa [ClientHandle.Available] using ha
    · have hfil : consideredFilter team exclude (p :: rest) =
          consideredFilter team exclude rest := by
        simp [consideredFilter, List.filter_cons, hc]
      simp only [GFAloop, if_neg hc, hfil]
      rw [ih]

/-- C1: only-first selection scans the session table in insertion order,
considers only sessions whose team equals `dest` (or `dest == $$all`) that
are not the sender, returns the first considered session whose
unavailability set does not contain `type`, falls back to the last
considered session when none is available, and returns nothing when no
session is considered. -/
theorem C1_GetFirstAvailable_only_first_selection
    (clients : List ClientHandle) (dest ty : String) (sender : Nat) :
    GetFirstAvailable clients dest ty sender = specOnlyFirst clients dest ty sender := by
  rw [GetFirstAvailable, GFAloop_spec]
  have hcf : consideredFilter dest sender clients.enum =
      specConsidered clients dest sender := rfl
  rw [hcf, specOnlyFirst]
  cases hfind : (specConsidered clients dest sender).find?
      (fun p => !(p.2.unavailable.contains ty)) with
  | some q => rfl
  | none =>
    simp only []
    cases hlast : (specConsidered clients dest sender).getLast? with
    | some q => rfl
    | none => rfl

/-- Feeding a concatenation of two byte chunks is feeding them one after the
other: the reader state (cursor and partial-field offset) reached after the
first chunk is the state the second chunk starts from, and the emitted
frames and errors concatenate. -/
theorem feed_append (r : WireReader) (xs ys : List Nat) :
    feed r (xs ++ ys) =
      ((feed (feed r xs).1 ys).1,
       (feed r xs).2.1 ++ (feed (feed r xs).1 ys).2.1,
       (feed r xs).2.2 ++ (feed (feed r xs).1 ys).2.2) := by
  induction xs generalizing r with
  | nil => simp [feed]
  | cons b rest ih =>
    simp only [List.cons_append, feed, List.append_eq]
    rw [ih]
    simp [List.append_assoc]

/-- C7: for every byte sequence and every partition of it into consecutive
chunks, feeding the reader the chunks one at a time emits the same frames
(and errors), with the same contents and in the same order, as feeding the
whole sequence at once, and ends in the same reader state: the cursor and
partial-field offset persist across `Read` calls that return false. -/
theorem C7_reader_resumability (r : WireReader) (chunks : List (List Nat)) :
    feedChunks r chunks = feed r chunks.flatten := by
  induction chunks generalizing r with
  | nil => simp [feedChunks, feed]
  | cons c cs ih =>
    simp only [feedChunks, List.flatten_cons, feed_append]
    rw [ih]

/-- C9: for an active (handshaken) session, processing a message with empty
`dest` whose type is not in the reserved control set is a no-op at the
broker: no session receives anything and no session state changes. -/
theorem C9_empty_dest_noop (now : Int) (clients : List ClientHandle) (i : Nat)
    (msg : Message) (ch : ClientHandle)
    (hch : clients[i]? = some ch) (hh : ch.handshaken = true)
    (hdest : msg.dest = "") (hty : msg.type ∉ RESERVED_TYPES) :
    HandleMessage now clients i msg = (clients, []) := by
  have hta : msg.type ≠ MSG_AVAILABLE := by
    intro h
    exact hty (by rw [h]; simp [RESERVED_TYPES, MSG_AVAILABLE])
  rw [HandleMessage, hch]
  simp only [hh, hta, hdest, Bool.not_true, if_false, if_neg hta,
    list_set_self clients i ch hch]
  simp [list_set_self clients i ch hch]

/-- Witness for C9 at a concrete table and message. -/
theorem C9_witness :
    HandleMessage 5
      [{ conn_type := .UNIX, handshaken := true, connected := true }] 0
      { type := "ping" } =
      ([{ conn_type := .UNIX, handshaken := true, connected := true }], []) :=
  C9_empty_dest_noop 5 _ 0 _ _ rfl rfl rfl (by decide)

/-- C2: a session with `handshaken = false` processing any non-`$$handshake`
message, or a `$$handshake` failing `VALIDATE_HANDSHAKE_SERVERSIDE`, is closed
with reason "Failed handshake" and nothing is delivered to any other session
(the only write is the `$$disconnect {reason, who: $$you}` notice to the
session itself); a valid `$$handshake` adopts the declared team name, wire
format and max frame length, sets `handshaken`, and routes nothing. -/
theorem C2_handshake_gate (now : Int) (clients : List ClientHandle) (i : Nat)
    (msg : Message) (ch : ClientHandle)
    (hch : clients[i]? = some ch) (hh : ch.handshaken = false)
    (hc : ch.connected = true) :
    ((msg.type ≠ MSG_HANDSHAKE ∨
        ValidateJSON msg.content VALIDATE_HANDSHAKE_SERVERSIDE = false) →
      HandleMessage now clients i msg =
        (clients.set i { ch with connected := false },
         [(i, ClientHandle.mkSelfDisconnect "Failed handshake")]))
    ∧ ((msg.type = MSG_HANDSHAKE ∧
        ValidateJSON msg.content VALIDATE_HANDSHAKE_SERVERSIDE = true) →
      HandleMessage now clients i msg =
        (clients.set i { ch with
           preferences := { ch.preferences with
             teamname := ((msg.content.getKey "teamname").asString).getD "",
             format := (msg.content.getKey "format").toFormat,
             max_msg_length := (msg.content.getKey "max-message-length").toU32 },
           handshaken := true },
         [])) := by
  constructor
  · intro h
    rw [HandleMessage, hch]
    have himp : msg.type = MSG_HANDSHAKE →
        ValidateJSON msg.content VALIDATE_HANDSHAKE_SERVERSIDE = false := by
      intro ht
      rcases h with h | h
      · exact absurd ht h
      · exact h
    simp [hh, ClientHandle.Disconnect, hc]
    exact himp
  · intro h
    rw [HandleMessage, hch]
    have hcond : ¬ (msg.type ≠ MSG_HANDSHAKE ∨
        ¬ (ValidateJSON msg.content VALIDATE_HANDSHAKE_SERVERSIDE = true)) := by
      simp [h.1, h.2]
    simp [hh, hcond, h.1, h.2]

/-- Witness for C2: a fresh stream session (from `AddConnection`) is closed
on a non-handshake message, and adopts the declared preferences on a valid
handshake. -/
theorem C2_witness :
    (HandleMessage 5 [AddConnection 32768 .UNIX] 0 { type := "bogus" } =
      ([{ AddConnection 32768 .UNIX with connected := false }],
       [(0, ClientHandle.mkSelfDisconnect "Failed handshake")]))
    ∧ (HandleMessage 5 [AddConnection 32768 .UNIX] 0
        { type := MSG_HANDSHAKE,
          content := .obj [("teamname", .str "alpha"), ("format", .num 1),
                           ("max-message-length", .num 1024),
                           ("version", .num 0)] } =
      ([{ AddConnection 32768 .UNIX with
            preferences := { (AddConnection 32768 .UNIX).preferences with
              teamname := "alpha", format := .MSGPACK, max_msg_length := 1024 },
            handshaken := true }],
       [])) := by
  constructor
  · exact (C2_handshake_gate 5 _ 0 _ _ rfl rfl rfl).1 (Or.inl (by decide))
  · exact (C2_handshake_gate 5 _ 0 _ _ rfl rfl rfl).2 ⟨rfl, by decide⟩

/-- Every entry of a table obtained by `set` from an all-connected table,
with a connected replacement, is connected. -/
theorem connected_of_set {clients : List ClientHandle} {i : Nat}
    {ch1 : ClientHandle} (hconn : ∀ c ∈ clients, c.connected = true)
    (h1 : ch1.connected = true) :
    ∀ c ∈ clients.set i ch1, c.connected = true := by
  intro c hc
  rcases List.mem_or_eq_of_mem_set hc with h | rfl
  · exact hconn c h
  · exact h1

/-- An indexed lookup hit is a member. -/
theorem mem_of_getElem_opt {α : Type} {l : List α} {i : Nat} {a : α}
    (h : l[i]? = some a) : a ∈ l := by
  obtain ⟨hlt, rfl⟩ := List.getElem?_eq_some_iff.mp h
  exact List.getElem_mem hlt

/-- The write loop over `GetClients_NoLock` recipients, characterised: with
every table entry connected, the deliveries are exactly the table entries
whose team matches (or wildcard destination), the sender excluded, in table
order. -/
theorem routeAll_spec (clients1 : List ClientHandle) (i : Nat) (msg' : Message)
    (dest : String) (hconn1 : ∀ c ∈ clients1, c.connected = true) :
    ((GetClients_NoLock clients1 dest).filter
        (fun j => j ≠ i ∧ clients1[j]?.elim false (·.connected))).map
      (fun j => (j, msg')) =
    (clients1.enum.filter
        (fun p => (p.2.preferences.teamname = dest ∨ dest = MSG_ALL) ∧ p.1 ≠ i)).map
      (fun p => (p.1, msg')) := by
  have henum : ∀ p ∈ clients1.enum, clients1[p.1]? = some p.2 := by
    intro p hp
    exact List.mk_mem_enum_iff_getElem?.mp (by simpa using hp)
  have hcon : ∀ p ∈ clients1.enum,
      clients1[p.1]?.elim false (·.connected) = true := by
    intro p hp
    rw [henum p hp]
    exact hconn1 p.2 (mem_of_getElem_opt (henum p hp))
  by_cases hall : dest = MSG_ALL
  · subst hall
    rw [GetClients_NoLock, if_pos rfl, List.filter_map, List.map_map]
    rw [List.filter_congr
      (q := fun p : Nat × ClientHandle =>
        decide ((p.2.preferences.teamname = MSG_ALL ∨ (MSG_ALL : String) = MSG_ALL)
                ∧ p.1 ≠ i))
      (by intro p hp; simp [hcon p hp])]
    rfl
  · rw [GetClients_NoLock, if_neg hall, List.filter_map, List.map_map,
      List.filter_filter]
    rw [List.filter_congr
      (q := fun p : Nat × ClientHandle =>
        decide ((p.2.preferences.teamname = dest ∨ dest = MSG_ALL) ∧ p.1 ≠ i))
      (by intro p hp; simp [hcon p hp, hall, Bool.and_comm])]
    rfl

/-- C4 (amended): the claim as frozen fails on a `$$available` message with
invalid content (see the counterexample); for every other message with
`only_first == false` and non-empty `dest` from an active sender, in a table
of live sessions, the broker overwrites `src` with the sender's team name and
delivers a copy to exactly the sessions whose team name equals `dest` (all
sessions when `dest == $$all`), excluding the sender — in table order and to
no other session. The first conjunct records that the routing step does not
change any session's team name, so "sessions whose team equals dest" reads
the same on the pre- and post-tables. -/
theorem C4_team_routing (now : Int) (clients : List ClientHandle) (i : Nat)
    (msg : Message) (ch : ClientHandle)
    (hch : clients[i]? = some ch) (hh : ch.handshaken = true)
    (hconn : ∀ c ∈ clients, c.connected = true)
    (hof : msg.only_first = false) (hdest : msg.dest ≠ "")
    (hav : msg.type = MSG_AVAILABLE →
      ValidateJSON msg.content VALIDATE_AVAILABLE = true) :
    ((HandleMessage now clients i msg).1.map (fun c => c.preferences.teamname) =
       clients.map (fun c => c.preferences.teamname))
    ∧ (HandleMessage now clients i msg).2 =
        ((HandleMessage now clients i msg).1.enum.filter
          (fun p => (p.2.preferences.teamname = msg.dest ∨ msg.dest = MSG_ALL)
                    ∧ p.1 ≠ i)).map
          (fun p => (p.1, { msg with src := ch.preferences.teamname })) := by
  have hmem : ch ∈ clients := mem_of_getElem_opt hch
  rw [HandleMessage, hch]
  by_cases htype : msg.type = MSG_AVAILABLE
  · have hval := hav htype
    simp only [hh, if_pos htype, hval, if_neg hdest, hof, not_true,
      Bool.false_eq_true, if_false]
    have hconn1 : ∀ c ∈ clients.set i (ch.applyAvailable msg.content),
        c.connected = true :=
      connected_of_set hconn (hconn ch hmem)
    refine ⟨?_, ?_⟩
    · rw [List.map_set]
      exact list_set_self _ i _ (by rw [List.getElem?_map, hch]; rfl)
    · exact routeAll_spec (clients.set i (ch.applyAvailable msg.content)) i
        { msg with src := ch.preferences.teamname, only_first := false }
        msg.dest hconn1
  · simp only [hh, if_neg htype, if_neg hdest, hof, not_true,
      Bool.false_eq_true, if_false]
    rw [list_set_self clients i ch hch]
    refine ⟨rfl, ?_⟩
    exact routeAll_spec clients i
      { msg with src := ch.preferences.teamname, only_first := false }
      msg.dest hconn

/-- Counterexample to C4 as frozen: an active sender (team "s") sends a
`$$available` message with `only_first = false`, non-empty `dest = "t"` and
invalid (null) content while a session of team "t" sits at index 1; the
broker replies `$$error` to the sender and delivers nothing to the team-"t"
session, although the claim requires a copy to be delivered to it. -/
theorem C4_counterexample :
    (HandleMessage 5
      [{ conn_type := .UNIX, preferences := { teamname := "s" },
         handshaken := true, connected := true },
       { conn_type := .UNIX, preferences := { teamname := "t" },
         handshaken := true, connected := true }] 0
      { dest := "t", type := MSG_AVAILABLE, content := .null,
        only_first := false }).2 =
    [(0, { type := MSG_ERROR,
           content := .str "Incorrect format for $$available message" })] := by
  rfl

/-- Witness for C4 at a concrete table: sender (team "s") at index 0,
recipients of team "t" at indices 1 and 3, a team "u" session at index 2. -/
theorem C4_witness :
    (HandleMessage 5
      [{ conn_type := .UNIX, preferences := { teamname := "s" },
         handshaken := true, connected := true },
       { conn_type := .UNIX, preferences := { teamname := "t" },
         handshaken := true, connected := true },
       { conn_type := .UNIX, preferences := { teamname := "u" },
         handshaken := true, connected := true },
       { conn_type := .UNIX, preferences := { teamname := "t" },
         handshaken := true, connected := true }] 0
      { dest := "t", type := "ping", only_first := false }).2 =
    [(1, { dest := "t", src := "s", type := "ping", only_first := false }),
     (3, { dest := "t", src := "s", type := "ping", only_first := false })] := by
  rw [(C4_team_routing 5 _ 0 _ _ rfl rfl (by decide) rfl (by decide)
    (fun h => absurd h (by decide))).2]
  rfl

/-- The codec round-trip at the JSON level: decoding the encoding of a
message restores it, provided the content is not an empty array/object
(which `to_json` omits — `content.empty()` — and `from_json` then defaults
to null). -/
theorem fromJson_toJson (m : Message)
    (hc : m.content = .null ∨ m.content.isEmptyVal = false) :
    Message.fromJson m.toJson = some m := by
  obtain ⟨d, s, t, c, o⟩ := m
  by_cases hd : d = "" <;> by_cases hs : s = "" <;>
    rcases hc with hcn | hce <;>
      simp_all [Message.toJson, Message.fromJson, Json.containsKey, Json.getKey,
        Json.asString, Json.asBool, Json.isEmptyVal]

/-- Counterexample to C5 as frozen: a message whose content is the empty
array does not survive the round-trip — `to_json` omits the content field
(`content.empty()` is true for `[]`), and `from_json` defaults the missing
field to `null`, not to `[]`. -/
theorem C5_counterexample :
    Message.deserialise .JSON (Message.serialise .JSON
      { type := "t", content := .arr [] }) ≠
    some { type := "t", content := .arr [] } := by
  have h1 : Message.deserialise .JSON (Message.serialise .JSON
      { type := "t", content := .arr [] }) =
      some { type := "t", content := .null } := rfl
  rw [h1]
  intro h
  have h2 := congrArg (fun o => (Option.map Message.content o)) h
  simp only [Option.map_some] at h2
  exact absurd (Option.some.inj h2) (by intro hx; cases hx)

/-- C5 (amended): for every message `m` whose content is not an empty
array/object and every format, decoding the encoding of `m` yields `m`:
absent optional fields (`dest`, `src`, empty / null `content`) are omitted on
encode and defaulted on decode. A content that is an empty container is lost
(decoded as null) — see the counterexample. -/
theorem C5_frame_roundtrip (fmt : MessageFormat) (m : Message)
    (hc : m.content = .null ∨ m.content.isEmptyVal = false) :
    Message.deserialise fmt (Message.serialise fmt m) = some m := by
  cases fmt <;> exact fromJson_toJson m hc

/-- Witness for C5 at a concrete message, in both formats. -/
theorem C5_witness :
    (Message.deserialise .JSON (Message.serialise .JSON
      { dest := "team", src := "", type := "t", content := .num 3 }) =
      some { dest := "team", src := "", type := "t", content := .num 3 })
    ∧ (Message.deserialise .MSGPACK (Message.serialise .MSGPACK
      { dest := "", src := "x", type := "u", content := .null,
        only_first := true }) =
      some { dest := "", src := "x", type := "u", content := .null,
             only_first := true }) :=
  ⟨C5_frame_roundtrip .JSON _ (Or.inr rfl),
   C5_frame_roundtrip .MSGPACK _ (Or.inl rfl)⟩

/-- C8: `ClientHandle::Error` writes at most one `$$error` per wall-clock
second — a call within the same second as the last sent error writes nothing
and changes nothing — and an error passing the rate gate on a live session
stamps `last_error` with the current second; prior to `handshaken`, such an
error triggers immediate disconnect (the `$$error` reply followed by the
`$$disconnect {reason: "Failed handshake", who: $$you}` notice). -/
theorem C8_error_rate_limit (ch : ClientHandle) (now : Int) (estr : String) :
    (now - ch.last_error < 1 → ch.Error now estr = (ch, []))
    ∧ (1 ≤ now - ch.last_error → (ch.Error now estr).1.last_error = now)
    ∧ (ch.handshaken = false → ch.connected = true → 1 ≤ now - ch.last_error →
        ch.Error now estr =
          ({ ch with last_error := now, connected := false },
           [{ type := MSG_ERROR, content := .str estr },
            ClientHandle.mkSelfDisconnect "Failed handshake"])) := by
  refine ⟨?_, ?_, ?_⟩
  · intro h
    simp [ClientHandle.Error, h]
  · intro h
    have h2 : ¬ (now - ch.last_error < 1) := by omega
    by_cases hc : ch.connected <;> by_cases hh : ch.handshaken <;>
      simp [ClientHandle.Error, h2, hc, hh, ClientHandle.Disconnect]
  · intro hh hc h
    have h2 : ¬ (now - ch.last_error < 1) := by omega
    simp [ClientHandle.Error, h2, hh, hc, ClientHandle.Disconnect]

/-- Witness for C8: a pre-handshake session with `last_error = 5` — an error
in the same second is a no-op; an error two seconds later disconnects. -/
theorem C8_witness :
    (ClientHandle.Error
      { conn_type := .UNIX, connected := true, handshaken := false,
        last_error := 5 } 5 "e" =
      ({ conn_type := .UNIX, connected := true, handshaken := false,
         last_error := 5 }, []))
    ∧ (ClientHandle.Error
      { conn_type := .UNIX, connected := true, handshaken := false,
        last_error := 5 } 7 "e" =
      ({ conn_type := .UNIX, connected := false, handshaken := false,
         last_error := 7 },
       [{ type := MSG_ERROR, content := .str "e" },
        ClientHandle.mkSelfDisconnect "Failed handshake"])) :=
  ⟨(C8_error_rate_limit _ 5 "e").1 (by decide),
   (C8_error_rate_limit _ 7 "e").2.2 rfl rfl (by decide)⟩

/-- A closed session consumes nothing. -/
theorem processBytes_not_connected (ch : ClientHandle) (now : Int)
    (bytes : List Nat) (hc : ch.connected = false) :
    processBytes ch now bytes = (ch, [], []) := by
  cases bytes <;> simp [processBytes, hc]

/-- Serving a concatenation of two byte chunks composes. -/
theorem processBytes_append (ch : ClientHandle) (now : Int) (xs ys : List Nat) :
    processBytes ch now (xs ++ ys) =
      ((processBytes (processBytes ch now xs).1 now ys).1,
       (processBytes ch now xs).2.1 ++
         (processBytes (processBytes ch now xs).1 now ys).2.1,
       (processBytes ch now xs).2.2 ++
         (processBytes (processBytes ch now xs).1 now ys).2.2) := by
  induction xs generalizing ch with
  | nil => simp [processBytes]
  | cons b rest ih =>
    by_cases hc : ch.connected
    · simp only [List.cons_append, processBytes, if_pos hc, List.append_eq]
      rw [ih]
      simp [List.append_assoc]
    · have hc' : ch.connected = false := by simpa using hc
      rw [processBytes_not_connected ch now ((b :: rest) ++ ys) hc',
        processBytes_not_connected ch now (b :: rest) hc',
        processBytes_not_connected ch now ys hc']
      simp

/-- Filling the body field of a connected session: consuming the remaining
body bytes emits the frame and resets the reader, with no error written. -/
theorem processBytes_bodyFill (now : Int) (f size : Nat) :
    ∀ (bytes : List Nat) (ch : ClientHandle) (accum : List Nat),
      ch.connected = true →
      ch.reader.phase = .body f size →
      ch.reader.buf = accum →
      accum.length + bytes.length = size →
      bytes ≠ [] →
      processBytes ch now bytes =
        ({ ch with reader := ch.reader.reset }, [],
         [{ format := f, body := accum ++ bytes }]) := by
  intro bytes
  induction bytes with
  | nil =>
    intro ch accum _ _ _ _ hne
    exact absurd rfl hne
  | cons b rest ih =>
    intro ch accum hc hph hbuf hlen _
    cases rest with
    | nil =>
      have hfull : ¬ (accum.length + 1 < size) := by
        simp at hlen
        omega
      simp [processBytes, hc, stepByte, hph, hbuf, hfull]
    | cons b2 rest2 =>
      have hpart : accum.length + 1 < size := by
        simp at hlen
        omega
      have hstep : processBytes ch now (b :: (b2 :: rest2)) =
          processBytes { ch with reader :=
            { maxMsgLen := ch.reader.maxMsgLen, phase := .body f size,
              buf := accum ++ [b] } } now (b2 :: rest2) := by
        simp [processBytes, hc, stepByte, hph, hbuf, hpart]
      rw [hstep]
      rw [ih _ (accum ++ [b]) (by simpa using hc) rfl rfl
        (by simp at hlen ⊢; omega) (by simp)]
      simp [WireReader.reset]

/-- One byte consumed without a reader error: the session just advances its
reader, prepending any emitted frame. -/
theorem processBytes_cons_noerr (ch : ClientHandle) (now : Int) (b : Nat)
    (rest : List Nat) (r1 : WireReader) (fr : Option Frame)
    (hc : ch.connected = true)
    (hs : stepByte ch.reader b = (r1, fr, none)) :
    processBytes ch now (b :: rest) =
      ((processBytes { ch with reader := r1 } now rest).1,
       (processBytes { ch with reader := r1 } now rest).2.1,
       fr.toList ++ (processBytes { ch with reader := r1 } now rest).2.2) := by
  obtain ⟨ct, pf, un, hsk, cn, le, rd⟩ := ch
  have hc2 : cn = true := hc
  subst hc2
  simp [processBytes, hs]

/-- One byte consumed with a reader error: `ClientHandle::Error` runs inside
the header callback; its written messages are prepended. -/
theorem processBytes_cons_err (ch : ClientHandle) (now : Int) (b : Nat)
    (rest : List Nat) (r1 : WireReader) (estr : String)
    (ch2 : ClientHandle) (outs : List Message)
    (hc : ch.connected = true)
    (hs : stepByte ch.reader b = (r1, none, some estr))
    (he : ClientHandle.Error { ch with reader := r1 } now estr = (ch2, outs)) :
    processBytes ch now (b :: rest) =
      ((processBytes ch2 now rest).1,
       outs ++ (processBytes ch2 now rest).2.1,
       (processBytes ch2 now rest).2.2) := by
  obtain ⟨ct, pf, un, hsk, cn, le, rd⟩ := ch
  have hc2 : cn = true := hc
  subst hc2
  simp [processBytes, hs, he]

/-- Counterexample to C6 as frozen: a stream session whose last `$$error`
was sent in the current wall-clock second (`last_error = now = 5`) receives a
header declaring length 9 while its reader's cap is 8 — an oversize frame —
yet zero `$$error` replies are written (the reply is suppressed by the rate
limit), where the claim requires exactly one. -/
theorem C6_counterexample :
    leU32 [9, 0, 0, 0] > 8
    ∧ (processBytes
        { conn_type := .UNIX, connected := true, handshaken := true,
          last_error := 5, reader := WireReader.fresh 8 } 5
        [0, 9, 0, 0, 0]).2.1 = [] :=
  ⟨by decide, rfl⟩

/-- C6 (amended): on a live handshaken stream session that has not sent an
`$$error` in the current second, a frame header declaring
`length > max_msg_len` causes exactly one `$$error` reply
("Buffer size too big!") and a reset of the reader to expect a new header,
and a subsequent well-formed frame on the same stream is parsed normally
(its frame is emitted to the message layer, and the session stays connected
with its reader reset). Without those provisos the reply can be suppressed
by the rate limit (see the counterexample) or, pre-handshake, the error
disconnects the session. -/
theorem C6_oversize_rejection (ch : ClientHandle) (now : Int)
    (f b0 b1 b2 b3 g c0 c1 c2 c3 : Nat) (body : List Nat)
    (hconn : ch.connected = true) (hh : ch.handshaken = true)
    (hrate : 1 ≤ now - ch.last_error)
    (hphase : ch.reader.phase = .header)
    (hf : f = 0 ∨ f = 1)
    (hsize : leU32 [b0, b1, b2, b3] > ch.reader.maxMsgLen)
    (hg : g = 0 ∨ g = 1)
    (hbody : body.length = leU32 [c0, c1, c2, c3])
    (hsize2 : leU32 [c0, c1, c2, c3] ≤ ch.reader.maxMsgLen) :
    processBytes ch now
      ([f, b0, b1, b2, b3] ++ ([g, c0, c1, c2, c3] ++ body)) =
      ({ ch with last_error := now, reader := ch.reader.reset },
       [{ type := MSG_ERROR, content := .str "Buffer size too big!" }],
       [{ format := g, body := body }]) := by
  have hgate : ¬ (now - ch.last_error < 1) := by omega
  rcases hrd : ch.reader with ⟨M, ph, rbuf⟩
  have hph : ph = Phase.header := by rw [hrd] at hphase; exact hphase
  subst hph
  have hsz : leU32 [b0, b1, b2, b3] > M := by rw [hrd] at hsize; exact hsize
  have hsz2 : leU32 [c0, c1, c2, c3] ≤ M := by rw [hrd] at hsize2; exact hsize2
  have hreset : ch.reader.reset = ⟨M, .header, []⟩ := by rw [hrd]; rfl
  have hsznot : ¬ (leU32 [c0, c1, c2, c3] > M) := by omega
  -- the five bytes of the oversize header
  have s1 : stepByte ch.reader f = (⟨M, .length f, []⟩, none, none) := by
    rw [hrd]
    rfl
  have s5 : stepByte ⟨M, .length f, [b0, b1, b2]⟩ b3 =
      ((⟨M, .header, []⟩ : WireReader), none, some "Buffer size too big!") := by
    rcases hf with rfl | rfl <;> simp [stepByte, WireReader.reset, hsz]
  have e5 : ClientHandle.Error
      { ch with reader := (⟨M, .header, []⟩ : WireReader) } now
      "Buffer size too big!" =
      ({ ch with reader := ⟨M, .header, []⟩, last_error := now },
       [{ type := MSG_ERROR, content := .str "Buffer size too big!" }]) := by
    simp [ClientHandle.Error, hgate, hh, hconn]
  have hA : processBytes ch now [f, b0, b1, b2, b3] =
      ({ ch with reader := ⟨M, .header, []⟩, last_error := now },
       [{ type := MSG_ERROR, content := .str "Buffer size too big!" }], []) := by
    rw [processBytes_cons_noerr ch now f [b0, b1, b2, b3] _ _ hconn s1]
    rw [processBytes_cons_noerr { ch with reader := ⟨M, .length f, []⟩ }
      now b0 [b1, b2, b3] ⟨M, .length f, [b0]⟩ none hconn rfl]
    rw [processBytes_cons_noerr { ch with reader := ⟨M, .length f, [b0]⟩ }
      now b1 [b2, b3] ⟨M, .length f, [b0, b1]⟩ none hconn rfl]
    rw [processBytes_cons_noerr { ch with reader := ⟨M, .length f, [b0, b1]⟩ }
      now b2 [b3] ⟨M, .length f, [b0, b1, b2]⟩ none hconn rfl]
    rw [processBytes_cons_err { ch with reader := ⟨M, .length f, [b0, b1, b2]⟩ }
      now b3 [] ⟨M, .header, []⟩ "Buffer size too big!" _ _ hconn s5 e5]
    simp [processBytes]
  -- the subsequent well-formed frame
  have hB : processBytes
      { ch with reader := (⟨M, .header, []⟩ : WireReader), last_error := now }
      now ([g, c0, c1, c2, c3] ++ body) =
      ({ ch with reader := ⟨M, .header, []⟩, last_error := now }, [],
       [{ format := g, body := body }]) := by
    cases body with
    | nil =>
      have hz : leU32 [c0, c1, c2, c3] = 0 := by simpa using hbody.symm
      have t5 : stepByte ⟨M, .length g, [c0, c1, c2]⟩ c3 =
          ((⟨M, .header, []⟩ : WireReader), some { format := g, body := [] },
           none) := by
        rcases hg with rfl | rfl <;> simp [stepByte, WireReader.reset, hz]
      rw [show ([g, c0, c1, c2, c3] ++ ([] : List Nat)) = [g, c0, c1, c2, c3]
        by simp]
      rw [processBytes_cons_noerr
        { ch with reader := (⟨M, .header, []⟩ : WireReader), last_error := now }
        now g [c0, c1, c2, c3] ⟨M, .length g, []⟩ none hconn rfl]
      rw [processBytes_cons_noerr
        { ch with reader := ⟨M, .length g, []⟩, last_error := now }
        now c0 [c1, c2, c3] ⟨M, .length g, [c0]⟩ none hconn rfl]
      rw [processBytes_cons_noerr
        { ch with reader := ⟨M, .length g, [c0]⟩, last_error := now }
        now c1 [c2, c3] ⟨M, .length g, [c0, c1]⟩ none hconn rfl]
      rw [processBytes_cons_noerr
        { ch with reader := ⟨M, .length g, [c0, c1]⟩, last_error := now }
        now c2 [c3] ⟨M, .length g, [c0, c1, c2]⟩ none hconn rfl]
      rw [processBytes_cons_noerr
        { ch with reader := ⟨M, .length g, [c0, c1, c2]⟩, last_error := now }
        now c3 [] ⟨M, .header, []⟩ (some { format := g, body := [] })
        hconn t5]
      simp [processBytes]
    | cons d ds =>
      have hnz : ¬ (leU32 [c0, c1, c2, c3] = 0) := by
        simp at hbody
        omega
      have t5 : stepByte ⟨M, .length g, [c0, c1, c2]⟩ c3 =
          ((⟨M, .body g (leU32 [c0, c1, c2, c3]), []⟩ : WireReader), none,
           none) := by
        rcases hg with rfl | rfl <;> simp [stepByte, hsznot, hnz]
      rw [show ([g, c0, c1, c2, c3] ++ (d :: ds)) =
        g :: (c0 :: (c1 :: (c2 :: (c3 :: (d :: ds))))) by simp]
      rw [processBytes_cons_noerr
        { ch with reader := (⟨M, .header, []⟩ : WireReader), last_error := now }
        now g (c0 :: (c1 :: (c2 :: (c3 :: (d :: ds)))))
        ⟨M, .length g, []⟩ none hconn rfl]
      rw [processBytes_cons_noerr
        { ch with reader := ⟨M, .length g, []⟩, last_error := now }
        now c0 (c1 :: (c2 :: (c3 :: (d :: ds))))
        ⟨M, .length g, [c0]⟩ none hconn rfl]
      rw [processBytes_cons_noerr
        { ch with reader := ⟨M, .length g, [c0]⟩, last_error := now }
        now c1 (c2 :: (c3 :: (d :: ds)))
        ⟨M, .length g, [c0, c1]⟩ none hconn rfl]
      rw [processBytes_cons_noerr
        { ch with reader := ⟨M, .length g, [c0, c1]⟩, last_error := now }
        now c2 (c3 :: (d :: ds))
        ⟨M, .length g, [c0, c1, c2]⟩ none hconn rfl]
      rw [processBytes_cons_noerr
        { ch with reader := ⟨M, .length g, [c0, c1, c2]⟩, last_error := now }
        now c3 (d :: ds)
        ⟨M, .body g (leU32 [c0, c1, c2, c3]), []⟩ none hconn t5]
      rw [processBytes_bodyFill now g (leU32 [c0, c1, c2, c3]) (d :: ds)
        { ch with reader := (⟨M, .body g (leU32 [c0, c1, c2, c3]), []⟩ :
            WireReader), last_error := now }
        [] hconn rfl rfl (by simp at hbody ⊢; omega) (by simp)]
      simp [WireReader.reset]
  rw [processBytes_append, hA, hB]
  simp [WireReader.reset]

/-- Witness for C6: cap 8, an oversize header declaring 9, then a valid
MSGPACK frame of length 3. -/
theorem C6_witness :
    processBytes
      { conn_type := .UNIX, connected := true, handshaken := true,
        last_error := 0, reader := WireReader.fresh 8 } 5
      ([0, 9, 0, 0, 0] ++ ([1, 3, 0, 0, 0] ++ [7, 7, 7])) =
      ({ conn_type := .UNIX, connected := true, handshaken := true,
         last_error := 5, reader := WireReader.fresh 8 },
       [{ type := MSG_ERROR, content := .str "Buffer size too big!" }],
       [{ format := 1, body := [7, 7, 7] }]) := by
  rw [C6_oversize_rejection _ 5 0 9 0 0 0 1 3 0 0 0 [7, 7, 7] rfl rfl
    (by decide) rfl (Or.inl rfl) (by decide) (Or.inr rfl) (by decide)
    (by decide)]
  rfl

/-- C3 evaluation at the failing input (socket path, `Server::Serve` lines
314-328): a disconnected stream session of team "alpha" is erased from the
table and a `$$disconnect` notice is broadcast to the one remaining session —
but its "who" field carries the moved-from empty string (read through the
dangling, freed handle), not "alpha". The unused local
`std::string teamname = std::move(ch->preferences.teamname)` shows the
intended value. -/
theorem C3_code_evaluation :
    Serve_RemoveAndBroadcast
      [{ conn_type := .UNIX, preferences := { teamname := "alpha" },
         handshaken := true, connected := false },
       { conn_type := .UNIX, preferences := { teamname := "beta" },
         handshaken := true, connected := true }] 0 =
      ([{ conn_type := .UNIX, preferences := { teamname := "beta" },
          handshaken := true, connected := true }],
       [(0, { type := MSG_DISCONNECT,
              content := .obj [("who", .str "")] })]) :=
  rfl

/-- `(l.set i b)[i]?` hits the replacement whenever position `i` exists. -/
theorem getElem_opt_set_self {α : Type} (l : List α) (i : Nat) (a b : α)
    (h : l[i]? = some a) : (l.set i b)[i]? = some b := by
  induction l generalizing i with
  | nil => simp at h
  | cons x xs ih =>
    cases i with
    | zero => simp [List.set]
    | succ j =>
      simp at h
      simp [List.set, ih j h]

/-- C10: the frame-length bound a stream session's reader enforces is the
broker's `max_msg_length` captured when the session was accepted, and it
never changes: (i) `AddConnection` builds the session with a reader whose
captured cap is the broker's current `max_msg_length`, while
`preferences.max_msg_length` starts at the default; (ii) no reader step
(`stepByte`) ever alters the captured cap; (iii) a valid `$$handshake`
declaring a max-message-length updates `preferences.max_msg_length` to the
declared value but leaves the session's reader — and hence the enforced
bound — untouched (`reader := ch.reader` in the updated record). -/
theorem C10_reader_cap_invariant (serverMax : Nat) (ct : ConnectionType)
    (now : Int) (clients : List ClientHandle) (i : Nat) (msg : Message)
    (ch : ClientHandle) :
    ((AddConnection serverMax ct).reader = WireReader.fresh serverMax
      ∧ (AddConnection serverMax ct).preferences.max_msg_length =
          DEFAULT_MAX_MESSAGE_LENGTH)
    ∧ (∀ (r : WireReader) (b : Nat), (stepByte r b).1.maxMsgLen = r.maxMsgLen)
    ∧ (clients[i]? = some ch → ch.handshaken = false →
        msg.type = MSG_HANDSHAKE →
        ValidateJSON msg.content VALIDATE_HANDSHAKE_SERVERSIDE = true →
        (HandleMessage now clients i msg).1[i]? =
          some { ch with
            preferences := { ch.preferences with
              teamname := ((msg.content.getKey "teamname").asString).getD "",
              format := (msg.content.getKey "format").toFormat,
              max_msg_length :=
                (msg.content.getKey "max-message-length").toU32 },
            handshaken := true }) := by
  refine ⟨⟨rfl, rfl⟩, ?_, ?_⟩
  · intro r b
    rcases r with ⟨M, ph, buf⟩
    cases ph with
    | header => rfl
    | length f =>
      simp only [stepByte, WireReader.reset]
      repeat' split
      all_goals rfl
    | body f sz =>
      simp only [stepByte, WireReader.reset]
      repeat' split
      all_goals rfl
  · intro hch hh hty hval
    rw [HandleMessage, hch]
    have hcond : ¬ (msg.type ≠ MSG_HANDSHAKE ∨
        ¬ (ValidateJSON msg.content VALIDATE_HANDSHAKE_SERVERSIDE = true)) := by
      simp [hty, hval]
    simp only [hh]
    simp [hcond, hty, hval]
    exact getElem_opt_set_self clients i ch _ hch

/-- Witness for C10: a session accepted while the broker cap is 9999, then a
valid handshake declaring max-message-length 4321 — the preferences field
becomes 4321 while the reader keeps the captured cap 9999. -/
theorem C10_witness :
    (HandleMessage 5 [AddConnection 9999 .INTERNET] 0
      { type := MSG_HANDSHAKE,
        content := .obj [("teamname", .str "alpha"), ("format", .num 0),
                         ("max-message-length", .num 4321),
                         ("version", .num 2)] }).1[0]? =
      some { conn_type := .INTERNET,
             preferences := { teamname := "alpha", format := .JSON,
                              max_msg_length := 4321 },
             unavailable := [], handshaken := true, connected := true,
             last_error := 0, reader := WireReader.fresh 9999 } :=
  (C10_reader_cap_invariant 9999 .INTERNET 5 _ 0 _ _).2.2 rfl rfl rfl
    (by decide)

end Buxtehude